import Mathlib

/-!
Shallow embedding of the HoudiniUsdBridge dynamic file format plugin
(GEO_HDAFileFormat.cpp): the argument composer, the
change-affects-arguments decision, CanRead and Read.

Numeric C++ values (double, float, int64) are modelled as rationals and
integers.  A VtValue is modelled as a closed tagged variant over the types
the plugin inspects.  A VtDictionary (std::map from string to VtValue) is
modelled as a list of key/value pairs in map iteration order.
-/

/-- The time caching enumeration GEO_HAPITimeCaching
(GEO_HAPI_TIME_CACHING_NONE / CONTINUOUS / RANGE). -/
inductive GEO_HAPITimeCaching where
  | none
  | continuous
  | range
deriving DecidableEq, Repr

/-- Model of VtValue: a tagged variant over the types the plugin code
inspects with IsHolding / CanCast.  vempty models an empty VtValue or any
held type outside this set. -/
inductive VtValue where
  | vempty
  | vstring (s : String)
  | vdouble (x : ℚ)
  | vfloat (x : ℚ)
  | vint (n : ℤ)
  | vbool (b : Bool)
  | vvec2 (x y : ℚ)
  | vvec3 (x y z : ℚ)
  | vvec4 (x y z w : ℚ)
  | vdoubleArray (xs : List ℚ)
  | vint64Array (xs : List ℤ)
  | vdict (entries : List (String × VtValue))
  | vtimeCaching (m : GEO_HAPITimeCaching)

mutual

/-- Structural equality test on VtValue, modelling VtValue::operator==
(held types and held values compared). -/
def VtValue.beq : VtValue → VtValue → Bool
  | VtValue.vempty, VtValue.vempty => true
  | VtValue.vstring a, VtValue.vstring b => decide (a = b)
  | VtValue.vdouble a, VtValue.vdouble b => decide (a = b)
  | VtValue.vfloat a, VtValue.vfloat b => decide (a = b)
  | VtValue.vint a, VtValue.vint b => decide (a = b)
  | VtValue.vbool a, VtValue.vbool b => decide (a = b)
  | VtValue.vvec2 a1 a2, VtValue.vvec2 b1 b2 => decide (a1 = b1 ∧ a2 = b2)
  | VtValue.vvec3 a1 a2 a3, VtValue.vvec3 b1 b2 b3 =>
      decide (a1 = b1 ∧ a2 = b2 ∧ a3 = b3)
  | VtValue.vvec4 a1 a2 a3 a4, VtValue.vvec4 b1 b2 b3 b4 =>
      decide (a1 = b1 ∧ a2 = b2 ∧ a3 = b3 ∧ a4 = b4)
  | VtValue.vdoubleArray a, VtValue.vdoubleArray b => decide (a = b)
  | VtValue.vint64Array a, VtValue.vint64Array b => decide (a = b)
  | VtValue.vdict xs, VtValue.vdict ys => VtValue.beqEntries xs ys
  | VtValue.vtimeCaching a, VtValue.vtimeCaching b => decide (a = b)
  | _, _ => false

/-- Structural equality test on dictionary entry lists (VtDictionary
equality, entries compared in map order). -/
def VtValue.beqEntries :
    List (String × VtValue) → List (String × VtValue) → Bool
  | [], [] => true
  | (k, v) :: xs, (l, w) :: ys =>
      decide (k = l) && VtValue.beq v w && VtValue.beqEntries xs ys
  | _, _ => false

end

mutual

/-- VtValue.beq decides propositional equality. -/
theorem VtValue.beq_iff : (a b : VtValue) → (VtValue.beq a b = true ↔ a = b)
  | a, b => by
      cases a <;> cases b <;>
        simp only [VtValue.beq, decide_eq_true_eq, Bool.false_eq_true,
          VtValue.vstring.injEq, VtValue.vdouble.injEq, VtValue.vfloat.injEq,
          VtValue.vint.injEq, VtValue.vbool.injEq, VtValue.vvec2.injEq,
          VtValue.vvec3.injEq, VtValue.vvec4.injEq,
          VtValue.vdoubleArray.injEq, VtValue.vint64Array.injEq,
          VtValue.vdict.injEq, VtValue.vtimeCaching.injEq] <;>
        try (first
          | rfl
          | exact Iff.rfl
          | (constructor <;> intro h <;> simp_all))
      case vdict.vdict xs ys => exact VtValue.beqEntries_iff xs ys

/-- VtValue.beqEntries decides propositional equality of entry lists. -/
theorem VtValue.beqEntries_iff :
    (xs ys : List (String × VtValue)) →
      (VtValue.beqEntries xs ys = true ↔ xs = ys)
  | [], [] => by simp [VtValue.beqEntries]
  | [], (l, w) :: ys => by simp [VtValue.beqEntries]
  | (k, v) :: xs, [] => by simp [VtValue.beqEntries]
  | (k, v) :: xs, (l, w) :: ys => by
      have h1 := VtValue.beq_iff v w
      have h2 := VtValue.beqEntries_iff xs ys
      simp [VtValue.beqEntries, h1, h2, and_assoc]

end

instance : DecidableEq VtValue := fun a b =>
  decidable_of_iff (VtValue.beq a b = true) (VtValue.beq_iff a b)

/-- Metadata field name, matching plugInfo.json (theTimeCacheStartToken). -/
def theTimeCacheStartToken : String := "HDATimeCacheStart"

/-- Metadata field name (theTimeCacheEndToken). -/
def theTimeCacheEndToken : String := "HDATimeCacheEnd"

/-- Metadata field name (theTimeCacheIntervalToken). -/
def theTimeCacheIntervalToken : String := "HDATimeCacheInterval"

/-- Metadata field name (theParamDictToken). -/
def theParamDictToken : String := "HDAParms"

/-- Metadata field name (theOptionDictToken). -/
def theOptionDictToken : String := "HDAOptions"

/-- Metadata field name (theAssetNameToken). -/
def theAssetNameToken : String := "HDAAssetName"

/-- Metadata field name (theTimeCacheModeToken). -/
def theTimeCacheModeToken : String := "HDATimeCacheMode"

/-- Metadata field name (theHAPISessionToken). -/
def theHAPISessionToken : String := "HDAKeepEngineOpen"

/-- GEO_HDAFileFormat::CanFieldChangeAffectFileFormatArguments.  If the
changed field is one of the three time cache range settings and the
dependency context data holds a GEO_HAPITimeCaching mode other than range,
return false; otherwise return whether the old and new values differ. -/
def CanFieldChangeAffectFileFormatArguments (field : String)
    (oldValue newValue dependencyContextData : VtValue) : Bool :=
  if field == theTimeCacheStartToken || field == theTimeCacheEndToken ||
      field == theTimeCacheIntervalToken then
    match dependencyContextData with
    | VtValue.vtimeCaching mode =>
        if mode != GEO_HAPITimeCaching.range then false
        else decide (oldValue ≠ newValue)
    | _ => decide (oldValue ≠ newValue)
  else decide (oldValue ≠ newValue)

/-- C1: for each of the three time-cache range field names, if the
dependency token holds a time-caching mode other than Range, then
CanFieldChangeAffectFileFormatArguments returns false for all old and new
values, whether or not they differ. -/
theorem c1_range_fields_inert_outside_range_mode (field : String)
    (oldValue newValue : VtValue) (mode : GEO_HAPITimeCaching)
    (hf : field = theTimeCacheStartToken ∨ field = theTimeCacheEndToken ∨
      field = theTimeCacheIntervalToken)
    (hm : mode ≠ GEO_HAPITimeCaching.range) :
    CanFieldChangeAffectFileFormatArguments field oldValue newValue
      (VtValue.vtimeCaching mode) = false := by
  unfold CanFieldChangeAffectFileFormatArguments
  rcases hf with hf | hf | hf <;> subst hf <;>
    cases mode <;> simp_all [theTimeCacheStartToken, theTimeCacheEndToken,
      theTimeCacheIntervalToken]

/-- Witness for C1 at concrete inputs: the start field with differing
values under the Continuous mode token. -/
theorem c1_range_fields_inert_outside_range_mode_witness :
    CanFieldChangeAffectFileFormatArguments theTimeCacheStartToken
      (VtValue.vdouble 1) (VtValue.vdouble 2)
      (VtValue.vtimeCaching GEO_HAPITimeCaching.continuous) = false :=
  c1_range_fields_inert_outside_range_mode theTimeCacheStartToken
    (VtValue.vdouble 1) (VtValue.vdouble 2) GEO_HAPITimeCaching.continuous
    (Or.inl rfl) (by decide)

/-- C2: for every field other than the three range fields, and for the
three range fields when the dependency token holds the Range mode,
CanFieldChangeAffectFileFormatArguments returns true iff the old and new
values differ structurally. -/
theorem c2_affects_iff_value_changed (field : String)
    (oldValue newValue dependencyContextData : VtValue)
    (h : (field ≠ theTimeCacheStartToken ∧ field ≠ theTimeCacheEndToken ∧
        field ≠ theTimeCacheIntervalToken) ∨
      dependencyContextData =
        VtValue.vtimeCaching GEO_HAPITimeCaching.range) :
    (CanFieldChangeAffectFileFormatArguments field oldValue newValue
        dependencyContextData = true ↔ oldValue ≠ newValue) := by
  unfold CanFieldChangeAffectFileFormatArguments
  rcases h with ⟨h1, h2, h3⟩ | h
  · simp [h1, h2, h3]
  · subst h
    by_cases hf : field == theTimeCacheStartToken ||
        field == theTimeCacheEndToken ||
        field == theTimeCacheIntervalToken <;> simp [hf]

/-- Witness for C2 at concrete inputs: an unrelated field with differing
values is reported as affecting the arguments. -/
theorem c2_affects_iff_value_changed_witness :
    CanFieldChangeAffectFileFormatArguments "HDAParms"
      (VtValue.vdouble 1) (VtValue.vdouble 2) VtValue.vempty = true :=
  (c2_affects_iff_value_changed "HDAParms" (VtValue.vdouble 1)
      (VtValue.vdouble 2) VtValue.vempty
      (Or.inl (by refine ⟨?_, ?_, ?_⟩ <;> decide))).mpr (by decide)

/-- SdfFileFormat::FileFormatArguments: a string-to-string map, modelled
as an association list (lookup returns the first binding of a key). -/
abbrev FileFormatArguments := List (String × String)

/-- Map update, modelling std::map operator[] assignment: every binding of
the key is replaced in place, or a new binding is appended. -/
def setArg : FileFormatArguments → String → String → FileFormatArguments
  | [], key, value => [(key, value)]
  | p :: rest, key, value =>
      if p.1 == key then (key, value) :: setArg rest key value
      else p :: setArg rest key value

/-- Map lookup: the value bound to a key, if any. -/
def getArg : FileFormatArguments → String → Option String
  | [], _ => Option.none
  | p :: rest, key => if p.1 == key then some p.2 else getArg rest key

/-- Modelled from the spec: GEO_HDA_PARM_NUMERIC_PREFIX from
GEO_HDAFileFormat.h (the header is not under src); the literal is fixed
by the spec scenario emitting the key numeric_speed. -/
def numericParmMarker : String := "numeric_"

/-- Modelled from the spec: GEO_HDA_PARM_STRING_PREFIX from
GEO_HDAFileFormat.h (the header is not under src); the spec only fixes
that string parameters get their own distinct key marker. -/
def stringParmMarker : String := "string_"

/-- Modelled from the spec: GEO_HDA_PARM_SEPARATOR from
GEO_HDAFileFormat.h (the header is not under src); the spec fixes
space-separated element joining. -/
def parmSeparator : String := " "

/-- Stringification of a numeric value (TfStringify and UT_WorkBuffer
formatting), with rationals standing in for C++ doubles: whole values
print as integers. -/
def TfStringify (x : ℚ) : String :=
  if x.den = 1 then toString x.num else toString x.num ++ "/" ++ toString x.den

/-- VtValue::CanCast to double: holds for the scalar arithmetic types
(double, float, int64, bool), matching the numeric casts registered
between arithmetic types. -/
def canCastDouble : VtValue → Bool
  | VtValue.vdouble _ => true
  | VtValue.vfloat _ => true
  | VtValue.vint _ => true
  | VtValue.vbool _ => true
  | _ => false

/-- VtValue::Cast to double followed by UncheckedGet. -/
def castDouble : VtValue → ℚ
  | VtValue.vdouble x => x
  | VtValue.vfloat x => x
  | VtValue.vint n => (n : ℚ)
  | VtValue.vbool b => if b then 1 else 0
  | _ => 0

/-- VtValue::CanCast to GfVec2d. -/
def canCastVec2 : VtValue → Bool
  | VtValue.vvec2 _ _ => true
  | _ => false

/-- Elements of the cast GfVec2d in order (GetArray). -/
def vec2Elems : VtValue → List ℚ
  | VtValue.vvec2 x y => [x, y]
  | _ => []

/-- VtValue::CanCast to GfVec3d. -/
def canCastVec3 : VtValue → Bool
  | VtValue.vvec3 _ _ _ => true
  | _ => false

/-- Elements of the cast GfVec3d in order (GetArray). -/
def vec3Elems : VtValue → List ℚ
  | VtValue.vvec3 x y z => [x, y, z]
  | _ => []

/-- VtValue::CanCast to GfVec4d. -/
def canCastVec4 : VtValue → Bool
  | VtValue.vvec4 _ _ _ _ => true
  | _ => false

/-- Elements of the cast GfVec4d in order (GetArray). -/
def vec4Elems : VtValue → List ℚ
  | VtValue.vvec4 x y z w => [x, y, z, w]
  | _ => []

/-- VtValue::CanCast to VtDoubleArray. -/
def canCastDoubleArray : VtValue → Bool
  | VtValue.vdoubleArray _ => true
  | _ => false

/-- Elements of the cast VtDoubleArray in order. -/
def doubleArrayElems : VtValue → List ℚ
  | VtValue.vdoubleArray xs => xs
  | _ => []

/-- VtValue::CanCast to VtInt64Array. -/
def canCastInt64Array : VtValue → Bool
  | VtValue.vint64Array _ => true
  | _ => false

/-- Elements of the cast VtInt64Array in order. -/
def int64ArrayElems : VtValue → List ℤ
  | VtValue.vint64Array xs => xs
  | _ => []

/-- Element joining as in the addToArgs lambda: the value buffer is
seeded with the first element, then separator plus element is appended
for each remaining element. -/
def joinVals : List String → String
  | [] => ""
  | x :: xs => xs.foldl (fun acc s => acc ++ parmSeparator ++ s) x

/-- addNumericNodeParmToFormatArgs: adds one entry to args under the
numeric-marked parameter name whose value is the separator-joined element
list, trying the casts in the source's if/else order (double, GfVec2d,
GfVec3d, GfVec4d, VtDoubleArray, VtInt64Array); a value supporting none
of the casts adds nothing and produces one TF_WARN diagnostic. -/
def addNumericNodeParmToFormatArgs (args : FileFormatArguments)
    (parmName : String) (parmData : VtValue) :
    FileFormatArguments × List String :=
  let addToArgs : List String → FileFormatArguments := fun elems =>
    setArg args (numericParmMarker ++ parmName) (joinVals elems)
  if canCastDouble parmData then
    (addToArgs [TfStringify (castDouble parmData)], [])
  else if canCastVec2 parmData then
    (addToArgs ((vec2Elems parmData).map TfStringify), [])
  else if canCastVec3 parmData then
    (addToArgs ((vec3Elems parmData).map TfStringify), [])
  else if canCastVec4 parmData then
    (addToArgs ((vec4Elems parmData).map TfStringify), [])
  else if canCastDoubleArray parmData then
    (addToArgs ((doubleArrayElems parmData).map TfStringify), [])
  else if canCastInt64Array parmData then
    (addToArgs ((int64ArrayElems parmData).map (fun n => toString n)), [])
  else
    (args, ["Unexpected data type for parameter."])

/-- Body of the parameter-dictionary loop: a string-holding value is
stored under the string-marked name; any other value goes through
addNumericNodeParmToFormatArgs.  The second component accumulates
diagnostics. -/
def paramStep (acc : FileFormatArguments × List String)
    (e : String × VtValue) : FileFormatArguments × List String :=
  match e.2 with
  | VtValue.vstring s => (setArg acc.1 (stringParmMarker ++ e.1) s, acc.2)
  | _ =>
      let r := addNumericNodeParmToFormatArgs acc.1 e.1 e.2
      (r.1, acc.2 ++ r.2)

/-- The parameter-dictionary loop over all entries in map order. -/
def processParams (args : FileFormatArguments)
    (entries : List (String × VtValue)) :
    FileFormatArguments × List String :=
  entries.foldl paramStep (args, [])

/-- Body of the options-dictionary loop: a string-holding value is copied
through under its own unmarked name; every other value is skipped. -/
def optStep (a : FileFormatArguments) (e : String × VtValue) :
    FileFormatArguments :=
  match e.2 with
  | VtValue.vstring s => setArg a e.1 s
  | _ => a

/-- The options-dictionary loop over all entries in map order. -/
def processOptEntries (args : FileFormatArguments)
    (entries : List (String × VtValue)) : FileFormatArguments :=
  entries.foldl optStep args

/-- PcpDynamicFileFormatContext: ComposeValue is modelled as a function
from field token to the composed value, with none modelling ComposeValue
returning false. -/
structure PcpDynamicFileFormatContext where
  composeValue : String → Option VtValue

/-- One range setting: if the field composes to a float-holding value,
store its stringification under the given key (the body of the three
guarded blocks in the range branch). -/
def addFloatArg (args : FileFormatArguments) (key : String)
    (v : Option VtValue) : FileFormatArguments :=
  match v with
  | some (VtValue.vfloat x) => setArg args key (TfStringify x)
  | _ => args

/-- The time-caching block of ComposeFieldsForFileFormatArguments: when
the mode field composes to a string, the three range settings are added
only in the range branch, timecachemethod is always added with the mode
string, and the cache context is none, continuous or range accordingly
(an unrecognized mode string leaves it none); when the mode field is
absent or not string-holding, args are untouched and the cache context
stays none. -/
def processTimeCaching (context : PcpDynamicFileFormatContext)
    (args : FileFormatArguments) :
    FileFormatArguments × GEO_HAPITimeCaching :=
  match context.composeValue theTimeCacheModeToken with
  | some (VtValue.vstring mode) =>
      if mode == "none" then
        (setArg args "timecachemethod" mode, GEO_HAPITimeCaching.none)
      else if mode == "continuous" then
        (setArg args "timecachemethod" mode, GEO_HAPITimeCaching.continuous)
      else if mode == "range" then
        let args1 := addFloatArg args "timecachestart"
          (context.composeValue theTimeCacheStartToken)
        let args2 := addFloatArg args1 "timecacheend"
          (context.composeValue theTimeCacheEndToken)
        let args3 := addFloatArg args2 "timecacheinterval"
          (context.composeValue theTimeCacheIntervalToken)
        (setArg args3 "timecachemethod" mode, GEO_HAPITimeCaching.range)
      else
        (setArg args "timecachemethod" mode, GEO_HAPITimeCaching.none)
  | _ => (args, GEO_HAPITimeCaching.none)

/-- Result of ComposeFieldsForFileFormatArguments: the file format
arguments, the dependency context data, and the TF_WARN diagnostics
produced along the way. -/
structure ComposeResult where
  args : FileFormatArguments
  dependencyContextData : VtValue
  warnings : List String
deriving DecidableEq

/-- GEO_HDAFileFormat::ComposeFieldsForFileFormatArguments: processes the
parameter dictionary, the options dictionary, the asset name, the time
caching fields and the session flag in source order, and stores the time
caching mode as the dependency context data. -/
def ComposeFieldsForFileFormatArguments (assetPath : String)
    (context : PcpDynamicFileFormatContext)
    (args0 : FileFormatArguments) : ComposeResult :=
  let pr :=
    match context.composeValue theParamDictToken with
    | some (VtValue.vdict d) => processParams args0 d
    | _ => (args0, [])
  let args2 :=
    match context.composeValue theOptionDictToken with
    | some (VtValue.vdict d) => processOptEntries pr.1 d
    | _ => pr.1
  let args3 :=
    match context.composeValue theAssetNameToken with
    | some (VtValue.vstring name) => setArg args2 "assetname" name
    | _ => args2
  let tc := processTimeCaching context args3
  let args5 :=
    match context.composeValue theHAPISessionToken with
    | some (VtValue.vbool holdSession) =>
        setArg tc.1 "keepengineopen" (if holdSession then "1" else "0")
    | _ => tc.1
  { args := args5
    dependencyContextData := VtValue.vtimeCaching tc.2
    warnings := pr.2 }

/-- Looking up the key just set returns the value just set. -/
theorem getArg_setArg_same (args : FileFormatArguments) (k v : String) :
    getArg (setArg args k v) k = some v := by
  induction args with
  | nil => simp [setArg, getArg]
  | cons p rest ih =>
      by_cases h : p.1 = k
      · simp [setArg, getArg, h, ih]
      · simp [setArg, getArg, h, ih]

/-- Setting one key leaves the binding of every other key unchanged. -/
theorem getArg_setArg_ne (args : FileFormatArguments) (k v k2 : String)
    (h : k2 ≠ k) :
    getArg (setArg args k v) k2 = getArg args k2 := by
  have h' : ¬(k = k2) := fun hh => h hh.symm
  induction args with
  | nil => simp [setArg, getArg, h']
  | cons p rest ih =>
      by_cases hp : p.1 = k
      · simp [setArg, getArg, hp, ih, h']
      · by_cases hp2 : p.1 = k2 <;>
          simp [setArg, getArg, hp, hp2, ih, h', h]

/-- Spec-side view of one range setting: the argument value a composed
field result yields, when any. -/
def floatArgOf : Option VtValue → Option String
  | some (VtValue.vfloat x) => some (TfStringify x)
  | _ => Option.none

/-- Spec-side view of the mode field: the argument value a composed mode
field result yields, when any. -/
def modeArgOf : Option VtValue → Option String
  | some (VtValue.vstring s) => some s
  | _ => Option.none

/-- The cache mode the composer derives from the composed mode field
value alone. -/
def cacheOfMode : Option VtValue → GEO_HAPITimeCaching
  | some (VtValue.vstring mode) =>
      if mode == "none" then GEO_HAPITimeCaching.none
      else if mode == "continuous" then GEO_HAPITimeCaching.continuous
      else if mode == "range" then GEO_HAPITimeCaching.range
      else GEO_HAPITimeCaching.none
  | _ => GEO_HAPITimeCaching.none

/-- Adding one range setting yields the field's stringified float when
the field composes to a float, falling back to the existing binding. -/
theorem getArg_addFloatArg_same (args : FileFormatArguments) (k : String)
    (v : Option VtValue) :
    getArg (addFloatArg args k v) k = (floatArgOf v).or (getArg args k) := by
  cases v with
  | none => simp [addFloatArg, floatArgOf, Option.or]
  | some w =>
      cases w <;>
        simp [addFloatArg, floatArgOf, Option.or, getArg_setArg_same]

/-- Adding one range setting leaves every other key unchanged. -/
theorem getArg_addFloatArg_ne (args : FileFormatArguments) (k : String)
    (v : Option VtValue) (k2 : String) (h : k2 ≠ k) :
    getArg (addFloatArg args k v) k2 = getArg args k2 := by
  cases v with
  | none => simp [addFloatArg]
  | some w => cases w <;> simp [addFloatArg, getArg_setArg_ne _ _ _ _ h]

/-- The cache context computed by the time-caching block depends only on
the composed mode field. -/
theorem processTimeCaching_snd (context : PcpDynamicFileFormatContext)
    (args : FileFormatArguments) :
    (processTimeCaching context args).2 =
      cacheOfMode (context.composeValue theTimeCacheModeToken) := by
  unfold processTimeCaching cacheOfMode
  cases hv : context.composeValue theTimeCacheModeToken with
  | none => rfl
  | some w => cases w <;> simp <;> split_ifs <;> rfl

/-- C3: the three range settings contribute to the arguments exactly when
the composed mode string is range; then each field composing to a float
is emitted stringified under its fixed key and every absent or non-float
field adds nothing (no default); under every other composed mode the
time-caching block adds none of the three keys. -/
theorem c3_range_fields_only_in_range_mode
    (context : PcpDynamicFileFormatContext) (args : FileFormatArguments) :
    (context.composeValue theTimeCacheModeToken =
        some (VtValue.vstring "range") →
      getArg (processTimeCaching context args).1 "timecachestart" =
          (floatArgOf (context.composeValue theTimeCacheStartToken)).or
            (getArg args "timecachestart") ∧
        getArg (processTimeCaching context args).1 "timecacheend" =
          (floatArgOf (context.composeValue theTimeCacheEndToken)).or
            (getArg args "timecacheend") ∧
        getArg (processTimeCaching context args).1 "timecacheinterval" =
          (floatArgOf (context.composeValue theTimeCacheIntervalToken)).or
            (getArg args "timecacheinterval")) ∧
    (context.composeValue theTimeCacheModeToken ≠
        some (VtValue.vstring "range") →
      getArg (processTimeCaching context args).1 "timecachestart" =
          getArg args "timecachestart" ∧
        getArg (processTimeCaching context args).1 "timecacheend" =
          getArg args "timecacheend" ∧
        getArg (processTimeCaching context args).1 "timecacheinterval" =
          getArg args "timecacheinterval") := by
  constructor
  · intro h
    simp only [processTimeCaching, h]
    rw [if_neg (by decide), if_neg (by decide), if_pos (by decide)]
    refine ⟨?_, ?_, ?_⟩
    · rw [getArg_setArg_ne _ _ _ _ (by decide),
        getArg_addFloatArg_ne _ _ _ _ (by decide),
        getArg_addFloatArg_ne _ _ _ _ (by decide),
        getArg_addFloatArg_same]
    · rw [getArg_setArg_ne _ _ _ _ (by decide),
        getArg_addFloatArg_ne _ _ _ _ (by decide),
        getArg_addFloatArg_same,
        getArg_addFloatArg_ne _ _ _ _ (by decide)]
    · rw [getArg_setArg_ne _ _ _ _ (by decide),
        getArg_addFloatArg_same,
        getArg_addFloatArg_ne _ _ _ _ (by decide),
        getArg_addFloatArg_ne _ _ _ _ (by decide)]
  · intro h
    cases hv : context.composeValue theTimeCacheModeToken with
    | none => simp [processTimeCaching, hv]
    | some w =>
        cases w <;> simp only [processTimeCaching, hv] <;>
          try exact ⟨trivial, trivial, trivial⟩
        case vstring s =>
          have hs : s ≠ "range" := by
            intro hh
            exact h (by rw [hv, hh])
          split_ifs with h1 h2 h3
          · exact ⟨getArg_setArg_ne _ _ _ _ (by decide),
              getArg_setArg_ne _ _ _ _ (by decide),
              getArg_setArg_ne _ _ _ _ (by decide)⟩
          · exact ⟨getArg_setArg_ne _ _ _ _ (by decide),
              getArg_setArg_ne _ _ _ _ (by decide),
              getArg_setArg_ne _ _ _ _ (by decide)⟩
          · exact absurd (eq_of_beq h3) hs
          · exact ⟨getArg_setArg_ne _ _ _ _ (by decide),
              getArg_setArg_ne _ _ _ _ (by decide),
              getArg_setArg_ne _ _ _ _ (by decide)⟩

/-- Concrete context for the C3 witness: mode range, start a float,
end mistyped as a double, interval absent. -/
def ctxRangeExample : PcpDynamicFileFormatContext :=
  ⟨fun tok =>
    if tok == theTimeCacheModeToken then some (VtValue.vstring "range")
    else if tok == theTimeCacheStartToken then some (VtValue.vfloat 1)
    else if tok == theTimeCacheEndToken then some (VtValue.vdouble 24)
    else Option.none⟩

/-- Witness for C3: with mode range, the float start field is emitted,
the double-typed end field is dropped and the absent interval field is
dropped. -/
theorem c3_range_fields_only_in_range_mode_witness :
    getArg (processTimeCaching ctxRangeExample []).1 "timecachestart" =
        some "1" ∧
      getArg (processTimeCaching ctxRangeExample []).1 "timecacheend" =
        Option.none ∧
      getArg (processTimeCaching ctxRangeExample []).1 "timecacheinterval" =
        Option.none := by
  have h := (c3_range_fields_only_in_range_mode ctxRangeExample []).1
    (by decide)
  exact ⟨h.1.trans (by decide), h.2.1.trans (by decide),
    h.2.2.trans (by decide)⟩

/-- C4 counterexample: a context with an absent mode field (all fields
absent) yields no timecachemethod binding at all, not the claimed
timecachemethod = none default. -/
theorem c4_counterexample_absent_mode_emits_no_method_key :
    getArg (ComposeFieldsForFileFormatArguments "asset.hda"
        ⟨fun _ => Option.none⟩ []).args "timecachemethod" = Option.none := by
  decide

/-- C4 as amended: the timecachemethod argument is emitted, carrying the
composed mode string verbatim, exactly when the mode field composes to a
string-holding value; when the field is absent or not string-holding the
time-caching block leaves the binding unchanged (so an otherwise empty
composition has no timecachemethod key). -/
theorem c4_amended_method_key_iff_mode_composes
    (context : PcpDynamicFileFormatContext) (args : FileFormatArguments) :
    getArg (processTimeCaching context args).1 "timecachemethod" =
      (modeArgOf (context.composeValue theTimeCacheModeToken)).or
        (getArg args "timecachemethod") := by
  cases hv : context.composeValue theTimeCacheModeToken with
  | none => simp [processTimeCaching, hv, modeArgOf, Option.or]
  | some w =>
      cases w <;>
        simp only [processTimeCaching, hv, modeArgOf, Option.or] <;>
        try rfl
      case vstring s =>
        split_ifs <;> simp [getArg_setArg_same]

/-- C10: an unrecognized composed mode string (neither none, continuous
nor range) is still emitted verbatim under timecachemethod, none of the
three range keys is added, the cache context is None, and the composed
dependency data is the None caching mode. -/
theorem c10_unrecognized_mode_emitted_verbatim
    (context : PcpDynamicFileFormatContext) (args : FileFormatArguments)
    (s : String)
    (hmode : context.composeValue theTimeCacheModeToken =
      some (VtValue.vstring s))
    (h1 : s ≠ "none") (h2 : s ≠ "continuous") (h3 : s ≠ "range") :
    getArg (processTimeCaching context args).1 "timecachemethod" = some s ∧
      getArg (processTimeCaching context args).1 "timecachestart" =
        getArg args "timecachestart" ∧
      getArg (processTimeCaching context args).1 "timecacheend" =
        getArg args "timecacheend" ∧
      getArg (processTimeCaching context args).1 "timecacheinterval" =
        getArg args "timecacheinterval" ∧
      (processTimeCaching context args).2 = GEO_HAPITimeCaching.none ∧
      (∀ (assetPath : String) (args0 : FileFormatArguments),
        (ComposeFieldsForFileFormatArguments assetPath context args0
          ).dependencyContextData =
          VtValue.vtimeCaching GEO_HAPITimeCaching.none) := by
  have hb1 : ¬((s == "none") = true) := fun hh => h1 (eq_of_beq hh)
  have hb2 : ¬((s == "continuous") = true) := fun hh => h2 (eq_of_beq hh)
  have hb3 : ¬((s == "range") = true) := fun hh => h3 (eq_of_beq hh)
  have hmain : processTimeCaching context args =
      (setArg args "timecachemethod" s, GEO_HAPITimeCaching.none) := by
    simp only [processTimeCaching, hmode]
    rw [if_neg hb1, if_neg hb2, if_neg hb3]
  refine ⟨?_, ?_, ?_, ?_, ?_, ?_⟩
  · rw [hmain]; exact getArg_setArg_same _ _ _
  · rw [hmain]; exact getArg_setArg_ne _ _ _ _ (by decide)
  · rw [hmain]; exact getArg_setArg_ne _ _ _ _ (by decide)
  · rw [hmain]; exact getArg_setArg_ne _ _ _ _ (by decide)
  · rw [hmain]
  · intro assetPath args0
    simp only [ComposeFieldsForFileFormatArguments]
    rw [processTimeCaching_snd, hmode]
    simp [cacheOfMode, hb1, hb2, hb3]

/-- Concrete context for the C10 witness: mode holds the unrecognized
string Range (wrong case) and a float start field is present. -/
def ctxWrongCaseRange : PcpDynamicFileFormatContext :=
  ⟨fun tok =>
    if tok == theTimeCacheModeToken then some (VtValue.vstring "Range")
    else if tok == theTimeCacheStartToken then some (VtValue.vfloat 1)
    else Option.none⟩

/-- Witness for C10: mode Range (wrong case) is emitted verbatim, the
present float start field is not emitted, and the dependency data is the
None caching mode. -/
theorem c10_unrecognized_mode_emitted_verbatim_witness :
    getArg (processTimeCaching ctxWrongCaseRange []).1 "timecachemethod" =
        some "Range" ∧
      getArg (processTimeCaching ctxWrongCaseRange []).1 "timecachestart" =
        Option.none ∧
      (ComposeFieldsForFileFormatArguments "a.hda" ctxWrongCaseRange []
        ).dependencyContextData =
        VtValue.vtimeCaching GEO_HAPITimeCaching.none := by
  have h := c10_unrecognized_mode_emitted_verbatim ctxWrongCaseRange []
    "Range" (by decide) (by decide) (by decide) (by decide)
  exact ⟨h.1, h.2.1.trans (by decide), h.2.2.2.2.2 "a.hda" []⟩

/-- Whether a VtValue holds a std::string (IsHolding of std::string). -/
def VtValue.isHoldingString : VtValue → Bool
  | VtValue.vstring _ => true
  | _ => false

/-- Spec-side view of one options entry: the value it copies through for
a given name, when any. -/
def lastStringStep (k : String) (acc : Option String)
    (e : String × VtValue) : Option String :=
  match e.2 with
  | VtValue.vstring s => if e.1 == k then some s else acc
  | _ => acc

/-- Spec-side view of the options dictionary: the value of the last
string-holding entry carrying a given name, if any. -/
def lastStringValue (entries : List (String × VtValue)) (k : String) :
    Option String :=
  entries.foldl (lastStringStep k) Option.none

/-- One options step relative to an empty accumulator. -/
theorem lastStringStep_none_or (k : String) (acc : Option String)
    (e : String × VtValue) :
    lastStringStep k acc e = (lastStringStep k Option.none e).or acc := by
  obtain ⟨n, v⟩ := e
  cases v <;> simp only [lastStringStep] <;> try simp [Option.or]
  by_cases h : n = k <;> simp [h, Option.or]

/-- Folding the options view from any accumulator factors through the
empty accumulator. -/
theorem foldl_lastStringStep (k : String) :
    ∀ (entries : List (String × VtValue)) (acc : Option String),
      entries.foldl (lastStringStep k) acc =
        (entries.foldl (lastStringStep k) Option.none).or acc
  | [], acc => by simp [Option.none_or]
  | e :: rest, acc => by
      have ih1 := foldl_lastStringStep k rest (lastStringStep k acc e)
      have ih2 := foldl_lastStringStep k rest
        (lastStringStep k Option.none e)
      simp only [List.foldl_cons]
      rw [ih1, ih2, lastStringStep_none_or k acc e, ← Option.or_assoc]

/-- One body step of the options loop in terms of the spec-side view. -/
theorem getArg_optStep (args : FileFormatArguments)
    (e : String × VtValue) (k : String) :
    getArg (optStep args e) k =
      (lastStringStep k Option.none e).or (getArg args k) := by
  obtain ⟨n, v⟩ := e
  cases v <;> simp only [optStep, lastStringStep] <;>
    try simp [Option.none_or]
  by_cases h : n = k
  · subst h
    simp [getArg_setArg_same, Option.or]
  · simp [h, getArg_setArg_ne _ _ _ _ (fun hh => h hh.symm), Option.none_or]

/-- The options loop in terms of the spec-side view. -/
theorem processOptEntries_getArg :
    ∀ (entries : List (String × VtValue)) (args : FileFormatArguments)
      (k : String),
      getArg (processOptEntries args entries) k =
        (lastStringValue entries k).or (getArg args k)
  | [], args, k => by simp [processOptEntries, lastStringValue, Option.none_or]
  | e :: rest, args, k => by
      have ih := processOptEntries_getArg rest (optStep args e) k
      simp only [processOptEntries, lastStringValue, List.foldl_cons] at ih ⊢
      rw [ih, getArg_optStep, ← Option.or_assoc,
        foldl_lastStringStep k rest (lastStringStep k Option.none e)]

/-- C6: an options entry is copied through verbatim under its own
unmarked name iff it holds a string (the binding seen for a name is the
last string-holding entry of that name, with no marker added), and every
non-string entry leaves the arguments completely unchanged. -/
theorem c6_options_copied_iff_string (args : FileFormatArguments)
    (entries : List (String × VtValue)) (k : String) :
    (getArg (processOptEntries args entries) k =
      (lastStringValue entries k).or (getArg args k)) ∧
    (∀ e : String × VtValue, VtValue.isHoldingString e.2 = false →
      optStep args e = args) := by
  refine ⟨processOptEntries_getArg entries args k, ?_⟩
  rintro ⟨n, v⟩ h
  cases v <;> simp_all [optStep, VtValue.isHoldingString]

/-- Witness for C6 at concrete inputs: a string option is copied through
under its own name, a numeric option contributes no binding, and the
step on the numeric entry is the identity. -/
theorem c6_options_copied_iff_string_witness :
    getArg (processOptEntries []
        [("camera", VtValue.vstring "cam1"), ("num", VtValue.vdouble 3)])
        "camera" = some "cam1" ∧
      getArg (processOptEntries []
        [("camera", VtValue.vstring "cam1"), ("num", VtValue.vdouble 3)])
        "num" = Option.none ∧
      optStep [] ("num", VtValue.vdouble 3) = [] := by
  refine ⟨?_, ?_, ?_⟩
  · exact (c6_options_copied_iff_string []
      [("camera", VtValue.vstring "cam1"), ("num", VtValue.vdouble 3)]
      "camera").1.trans (by decide)
  · exact (c6_options_copied_iff_string []
      [("camera", VtValue.vstring "cam1"), ("num", VtValue.vdouble 3)]
      "num").1.trans (by decide)
  · exact (c6_options_copied_iff_string [] [] "num").2
      ("num", VtValue.vdouble 3) (by decide)

/-- Separator-led tail of a joined element list. -/
def sepTail : List String → String
  | [] => ""
  | y :: ys => parmSeparator ++ y ++ sepTail ys

/-- Spec-side joined value: the elements in order with the fixed
separator between consecutive elements. -/
def sepJoinedBySpec : List String → String
  | [] => ""
  | x :: xs => x ++ sepTail xs

/-- The value-buffer fold of the addToArgs lambda from any seed. -/
theorem foldl_sep_append :
    ∀ (ys : List String) (acc : String),
      ys.foldl (fun a s => a ++ parmSeparator ++ s) acc = acc ++ sepTail ys
  | [], acc => by simp [sepTail]
  | y :: ys, acc => by
      have ih := foldl_sep_append ys (acc ++ parmSeparator ++ y)
      simp only [List.foldl_cons, sepTail]
      rw [ih, String.append_assoc, String.append_assoc,
        String.append_assoc]

/-- The source's joining loop produces the spec-side joined value. -/
theorem joinVals_eq_sepJoined (xs : List String) :
    joinVals xs = sepJoinedBySpec xs := by
  cases xs with
  | nil => rfl
  | cons x xs =>
      simp only [joinVals, sepJoinedBySpec]
      exact foldl_sep_append xs x

/-- Spec-side coercion: the stringified element list produced by trying,
in the spec's fixed priority order, scalar double, 2-vector, 3-vector,
4-vector, double array, integer array; none when no coercion applies. -/
def coercedElemsBySpec (v : VtValue) : Option (List String) :=
  if canCastDouble v then some [TfStringify (castDouble v)]
  else if canCastVec2 v then some ((vec2Elems v).map TfStringify)
  else if canCastVec3 v then some ((vec3Elems v).map TfStringify)
  else if canCastVec4 v then some ((vec4Elems v).map TfStringify)
  else if canCastDoubleArray v then
    some ((doubleArrayElems v).map TfStringify)
  else if canCastInt64Array v then
    some ((int64ArrayElems v).map (fun n => toString n))
  else Option.none

/-- C5: for a non-string parameter value, the loop body routes the entry
through addNumericNodeParmToFormatArgs, which emits, under the
numeric-marked name, the separator-joined elements of the first
successful coercion in the spec's priority order (scalar double,
2-vector, 3-vector, 4-vector, double array, integer array), appending no
diagnostic; when no coercion succeeds it leaves the arguments unchanged
and appends exactly one diagnostic warning. -/
theorem c5_numeric_coercion_priority_order (args : FileFormatArguments)
    (parmName : String) (parmData : VtValue)
    (hns : VtValue.isHoldingString parmData = false) :
    (∀ elems : List String, coercedElemsBySpec parmData = some elems →
      addNumericNodeParmToFormatArgs args parmName parmData =
        (setArg args (numericParmMarker ++ parmName)
          (sepJoinedBySpec elems), [])) ∧
    (coercedElemsBySpec parmData = Option.none →
      addNumericNodeParmToFormatArgs args parmName parmData =
        (args, ["Unexpected data type for parameter."])) ∧
    (∀ warns : List String, paramStep (args, warns) (parmName, parmData) =
      ((addNumericNodeParmToFormatArgs args parmName parmData).1,
        warns ++ (addNumericNodeParmToFormatArgs args parmName parmData).2)) := by
  cases parmData <;>
    simp_all [coercedElemsBySpec, addNumericNodeParmToFormatArgs, paramStep,
      canCastDouble, canCastVec2, canCastVec3, canCastVec4,
      canCastDoubleArray, canCastInt64Array, castDouble, vec2Elems,
      vec3Elems, vec4Elems, doubleArrayElems, int64ArrayElems,
      joinVals_eq_sepJoined, VtValue.isHoldingString]

/-- Witness for C5 at concrete inputs: a 2-vector is emitted joined under
the numeric-marked name, an uncoercible dictionary value is dropped with
one warning, and the loop body routes a scalar double accordingly. -/
theorem c5_numeric_coercion_priority_order_witness :
    addNumericNodeParmToFormatArgs [] "scale" (VtValue.vvec2 1 2) =
        ([("numeric_scale", "1 2")], []) ∧
      addNumericNodeParmToFormatArgs [] "bad" (VtValue.vdict []) =
        ([], ["Unexpected data type for parameter."]) ∧
      paramStep ([], []) ("speed", VtValue.vdouble 4) =
        ([("numeric_speed", "4")], []) := by
  refine ⟨?_, ?_, ?_⟩
  · exact ((c5_numeric_coercion_priority_order [] "scale"
      (VtValue.vvec2 1 2) (by decide)).1 ["1", "2"] (by decide)).trans
      (by decide)
  · exact (c5_numeric_coercion_priority_order [] "bad" (VtValue.vdict [])
      (by decide)).2.1 (by decide)
  · exact ((c5_numeric_coercion_priority_order [] "speed"
      (VtValue.vdouble 4) (by decide)).2.2 []).trans (by decide)

/-- The cooked document GEO_HDAFileData would install as layer backing
data; only its identity matters to Read's control flow. -/
structure GEO_HDAFileDocument where
  cookArgs : FileFormatArguments
deriving DecidableEq

/-- SdfLayer as Read sees it: its file format arguments and its current
backing data (_SetLayerData replaces the latter). -/
structure SdfLayer where
  fileFormatArguments : FileFormatArguments
  backingData : Option GEO_HDAFileDocument
deriving DecidableEq

/-- GEO_HDAFileFormat::Read, parametrized by the outcome of
GEO_HDAFileData::Open (the external engine cook, implemented outside
this translation unit): the data is created from the layer's file format
arguments, then on open failure Read returns false without touching the
layer, and on success it installs the document via _SetLayerData and
returns true. -/
def GEO_HDAFileFormat.Read
    (openData : FileFormatArguments → String → Option GEO_HDAFileDocument)
    (layer : SdfLayer) (resolvedPath : String) : Bool × SdfLayer :=
  match openData layer.fileFormatArguments resolvedPath with
  | Option.none => (false, layer)
  | some doc => (true, { layer with backingData := some doc })

/-- C7: when Open fails, Read returns false and the layer, including any
previously installed backing data, is unchanged; a document is installed
exactly when Open succeeds, and then Read returns true. -/
theorem c7_read_installs_only_on_success
    (openData : FileFormatArguments → String → Option GEO_HDAFileDocument)
    (layer : SdfLayer) (resolvedPath : String) :
    (openData layer.fileFormatArguments resolvedPath = Option.none →
      GEO_HDAFileFormat.Read openData layer resolvedPath = (false, layer)) ∧
    (∀ doc : GEO_HDAFileDocument,
      openData layer.fileFormatArguments resolvedPath = some doc →
      GEO_HDAFileFormat.Read openData layer resolvedPath =
        (true, { layer with backingData := some doc })) ∧
    ((GEO_HDAFileFormat.Read openData layer resolvedPath).1 = false →
      (GEO_HDAFileFormat.Read openData layer resolvedPath).2 = layer) := by
  refine ⟨?_, ?_, ?_⟩ <;>
    cases h : openData layer.fileFormatArguments resolvedPath <;>
    simp_all [GEO_HDAFileFormat.Read]

/-- Witness for C7 at concrete inputs: a failing open leaves a layer with
existing backing data untouched and reports false; a succeeding open
installs the document and reports true. -/
theorem c7_read_installs_only_on_success_witness :
    GEO_HDAFileFormat.Read (fun _ _ => Option.none)
        ⟨[], some ⟨[("k", "v")]⟩⟩ "asset.hda" =
        (false, ⟨[], some ⟨[("k", "v")]⟩⟩) ∧
      GEO_HDAFileFormat.Read (fun a _ => some ⟨a⟩) ⟨[], Option.none⟩
        "asset.hda" = (true, ⟨[], some ⟨[]⟩⟩) := by
  constructor
  · exact (c7_read_installs_only_on_success (fun _ _ => Option.none)
      ⟨[], some ⟨[("k", "v")]⟩⟩ "asset.hda").1 rfl
  · exact (c7_read_installs_only_on_success (fun a _ => some ⟨a⟩)
      ⟨[], Option.none⟩ "asset.hda").2.1 ⟨[]⟩ rfl

/-- Text before and after the last occurrence of a separator character;
none when the character does not occur. -/
def splitAtLast (sep : Char) : List Char → Option (List Char × List Char)
  | [] => Option.none
  | c :: cs =>
      match splitAtLast sep cs with
      | some (b, a) => some (c :: b, a)
      | Option.none => if c = sep then some ([], cs) else Option.none

/-- TfGetBaseName: the path component after the last slash. -/
def TfGetBaseName (path : String) : String :=
  match splitAtLast '/' path.toList with
  | some (_, a) => String.mk a
  | Option.none => path

/-- TfStringGetSuffix: the text after the last dot, empty when there is
no dot. -/
def TfStringGetSuffix (s : String) : String :=
  match splitAtLast '.' s.toList with
  | some (_, a) => String.mk a
  | Option.none => ""

/-- TfStringGetBeforeSuffix: the text before the last dot, the whole
string when there is no dot. -/
def TfStringGetBeforeSuffix (s : String) : String :=
  match splitAtLast '.' s.toList with
  | some (b, _) => String.mk b
  | Option.none => s

/-- TfGetExtension: empty for the empty path and for dot files with no
extension, else the suffix of the base name after its last dot. -/
def TfGetExtension (path : String) : String :=
  if path = "" then ""
  else if TfStringGetBeforeSuffix (TfGetBaseName path) = "" then ""
  else TfStringGetSuffix (TfGetBaseName path)

/-- The fixed recognized extension set theExtensions
(UT_ArrayStringSet). -/
def theExtensions : List String :=
  ["hda", "otl", "hdanc", "otlnc", "hdalc", "otllc"]

/-- GEO_HDAFileFormat::CanRead: the path's extension is in the fixed
set. -/
def GEO_HDAFileFormat.CanRead (filePath : String) : Bool :=
  theExtensions.contains (TfGetExtension filePath)

/-- C8: CanRead holds exactly when the path's extension is one of the
six case-sensitive asset extensions; in particular it accepts asset.hda
and asset.otlnc and rejects asset.usd. -/
theorem c8_canread_iff_extension_recognized :
    (∀ filePath : String, GEO_HDAFileFormat.CanRead filePath = true ↔
      TfGetExtension filePath ∈ theExtensions) ∧
      GEO_HDAFileFormat.CanRead "asset.hda" = true ∧
      GEO_HDAFileFormat.CanRead "asset.otlnc" = true ∧
      GEO_HDAFileFormat.CanRead "asset.usd" = false := by
  refine ⟨fun filePath => ?_, by decide, by decide, by decide⟩
  simp [GEO_HDAFileFormat.CanRead, List.contains_iff_exists_mem_beq]

/-- Witness for C8: the iff applied at a concrete path with a recognized
extension. -/
theorem c8_canread_iff_extension_recognized_witness :
    GEO_HDAFileFormat.CanRead "dir.v2/foo.hdalc" = true :=
  (c8_canread_iff_extension_recognized.1 "dir.v2/foo.hdalc").mpr (by decide)

/-- C9: composing the same layered context twice is deterministic, both
in the produced cook-argument mapping and in the dependency data (the
composer is a pure function of the context). -/
theorem c9_compose_deterministic (assetPath : String)
    (context : PcpDynamicFileFormatContext) (args0 : FileFormatArguments) :
    ComposeFieldsForFileFormatArguments assetPath context args0 =
      ComposeFieldsForFileFormatArguments assetPath context args0 ∧
    (ComposeFieldsForFileFormatArguments assetPath context args0).args =
      (ComposeFieldsForFileFormatArguments assetPath context args0).args ∧
    (ComposeFieldsForFileFormatArguments assetPath context
        args0).dependencyContextData =
      (ComposeFieldsForFileFormatArguments assetPath context
        args0).dependencyContextData :=
  ⟨rfl, rfl, rfl⟩
